import Mathlib

/-!
Verification of go-syncstorage against its specification.

The per-user storage engine (`syncstorage` package: `db.go`) is exercised by
the test suite in `src/api/api_test.go` but its implementation is not part of
the provided sources; the corresponding definitions below are modelled from
the specification, with the in-tree tests pinning concrete behaviour.
The response cache (`src/web/cacheHandler.go`) is embedded directly from
its source.
-/

/- ## Storage engine model -/

/-- A Basic Storage Object, mirroring the Go `syncstorage.BSO` struct:
`Id`, `Modified`, `Payload`, `SortIndex` and the absolute expiry `TTL`. -/
structure BSO where
  Id : String
  Modified : Int
  Payload : String
  SortIndex : Int
  TTL : Int
deriving DecidableEq, Repr

/-- Error kinds of the storage engine (`ErrNotFound`, `ErrInvalidLimit`, ...). -/
inductive Err where
  | NotFound
  | InvalidLimit
  | InvalidOffset
  | InvalidNewer
  | NothingToDo
  | CollectionExists
deriving DecidableEq, Repr

/-- Modelled from the spec: ttl defaults to `DEFAULT_BSO_TTL` when inserting
without one.  Stored in the same absolute units as timestamps (1/100 s);
the exact value is not observable in any claim. -/
def DEFAULT_BSO_TTL : Int := 31536000 * 100

/-- Modelled from the spec: the fixed table of well-known collections
pre-seeded into every user database (`clients=1 ... addons=11`). -/
def commonCollections : List (String × Int) :=
  [("clients", 1), ("crypto", 2), ("forms", 3), ("history", 4),
   ("keys", 5), ("meta", 6), ("bookmarks", 7), ("prefs", 8),
   ("tabs", 9), ("passwords", 10), ("addons", 11)]

/-- Modelled from the spec: the state of one per-user store (`syncstorage.DB`,
missing from the sources): the `Collections` table as (name, id) rows and the
`BSO` table as (collection id, record) rows. -/
structure DB where
  collections : List (String × Int)
  bsos : List (Int × BSO)
deriving DecidableEq, Repr

/-- Modelled from the spec: a freshly created UserStore with the static
collection rows pre-seeded and no BSOs. -/
def newDB : DB := ⟨commonCollections, []⟩

/-- Look up a BSO row by collection id and bso id (no expiry filtering,
like the SQL row lookup backing `bsoExists` / `getBSO`). -/
def findB (l : List (Int × BSO)) (cId : Int) (bId : String) : Option BSO :=
  (l.find? (fun p => p.1 == cId && p.2.Id == bId)).map (·.2)

def DB.findBSO (db : DB) (cId : Int) (bId : String) : Option BSO :=
  findB db.bsos cId bId

/-- Modelled from the spec: `GetCollectionId(name) → id | NotFound`. -/
def DB.GetCollectionId (db : DB) (name : String) : Except Err Int :=
  match db.collections.find? (fun p => p.1 == name) with
  | some p => .ok p.2
  | none => .error .NotFound

/-- Largest collection id currently allocated. -/
def DB.maxCollectionId (db : DB) : Int :=
  db.collections.foldl (fun m p => max m p.2) 0

/-- Modelled from the spec: `CreateCollection(name) → id`, failing with
`CollectionExists` when the name is already bound; user-defined collections
are allocated ids ≥ 100, increasing monotonically. -/
def DB.CreateCollection (db : DB) (name : String) : Except Err (DB × Int) :=
  if (db.collections.find? (fun p => p.1 == name)).isSome then
    .error .CollectionExists
  else
    let id := max 100 (db.maxCollectionId + 1)
    .ok ({ db with collections := db.collections ++ [(name, id)] }, id)

/-- Modelled from the spec: `DeleteCollection(id)` removes the collection row
and all of its BSOs in a single transaction; `NotFound` if the id does not
exist.  (The global last-modified bookkeeping is not needed by any claim.) -/
def DB.DeleteCollection (db : DB) (cId : Int) : Except Err DB :=
  if (db.collections.find? (fun p => p.2 == cId)).isSome then
    .ok { collections := db.collections.filter (fun p => p.2 != cId),
          bsos := db.bsos.filter (fun p => p.1 != cId) }
  else
    .error .NotFound

/-- Modelled from the spec: `GetBSO(cid, bid) → BSO | NotFound`; `NotFound`
when the record is absent or expired (`ttl_absolute ≤ now`). -/
def DB.GetBSO (db : DB) (now : Int) (cId : Int) (bId : String) : Except Err BSO :=
  match db.findBSO cId bId with
  | some b => if now < b.TTL then .ok b else .error .NotFound
  | none => .error .NotFound

/-- Replace the row for `(cId, bId)` with `b`, leaving other rows alone. -/
def DB.replaceBSO (db : DB) (cId : Int) (bId : String) (b : BSO) : DB :=
  { db with
    bsos := db.bsos.map (fun p =>
      if p.1 == cId && p.2.Id == bId then (p.1, b) else p) }

/-- Modelled from the spec and the private-layer tests in `api_test.go`
(`TestPrivateUpdateBSOModifiedNotChangedOnTTLTouch`): update an existing BSO;
each supplied field takes its new value and omitted fields keep their old
values; a supplied ttl is stored as `modified + ttl` (absolute expiry based on
the transaction timestamp); `Modified` is bumped to the transaction timestamp
only when payload or sortindex is supplied; all-absent fails `NothingToDo`. -/
def DB.updateBSO (db : DB) (cId : Int) (bId : String) (modified : Int)
    (payload : Option String) (sortIndex : Option Int) (ttl : Option Int) :
    Except Err DB :=
  if payload.isNone && sortIndex.isNone && ttl.isNone then
    .error .NothingToDo
  else
    match db.findBSO cId bId with
    | none => .error .NotFound
    | some old =>
      let b : BSO :=
        { Id := old.Id
          Modified := if payload.isSome || sortIndex.isSome then modified else old.Modified
          Payload := payload.getD old.Payload
          SortIndex := sortIndex.getD old.SortIndex
          TTL := match ttl with
                 | some t => modified + t
                 | none => old.TTL }
      .ok (db.replaceBSO cId bId b)

/-- Modelled from the spec: insert a new BSO row; the stored `TTL` column is
the absolute expiry `modified + ttl`. -/
def DB.insertBSO (db : DB) (cId : Int) (bId : String) (modified : Int)
    (payload : String) (sortIndex : Int) (ttl : Int) : DB :=
  { db with
    bsos := db.bsos ++
      [(cId, { Id := bId, Modified := modified, Payload := payload,
               SortIndex := sortIndex, TTL := modified + ttl })] }

/-- Modelled from the spec: private `putBSO`: update when the record exists,
otherwise insert with the documented defaults (payload `""`, sortindex `0`,
ttl `DEFAULT_BSO_TTL`); fails `NothingToDo` when nothing is supplied and the
record is absent. -/
def DB.putBSO (db : DB) (cId : Int) (bId : String) (modified : Int)
    (payload : Option String) (sortIndex : Option Int) (ttl : Option Int) :
    Except Err DB :=
  if (db.findBSO cId bId).isSome then
    db.updateBSO cId bId modified payload sortIndex ttl
  else if payload.isNone && sortIndex.isNone && ttl.isNone then
    .error .NothingToDo
  else
    .ok (db.insertBSO cId bId modified (payload.getD "")
          (sortIndex.getD 0) (ttl.getD DEFAULT_BSO_TTL))

/-- Modelled from the spec: public `PutBSO`, taking the transaction timestamp
`ts` explicitly and the ttl in seconds; per the spec's TTL-storage rule the
stored column becomes `ts + ttl_seconds * 100`. -/
def DB.PutBSO (db : DB) (ts : Int) (cId : Int) (bId : String)
    (payload : Option String) (sortIndex : Option Int) (ttlSeconds : Option Int) :
    Except Err DB :=
  db.putBSO cId bId ts payload sortIndex (ttlSeconds.map (· * 100))

/-- One item of a `PostBSOs` batch: any subset of the three fields. -/
structure PostItem where
  Id : String
  Payload : Option String
  SortIndex : Option Int
  TTL : Option Int
deriving DecidableEq, Repr

/-- Modelled from the spec: `PostBSOs(cid, items[])`: per-item upsert sharing
the transaction timestamp, continuing past failures; returns the new state
together with the success and failed id lists. -/
def DB.PostBSOs (db : DB) (ts : Int) (cId : Int) (items : List PostItem) :
    DB × List String × List String :=
  items.foldl
    (fun acc it =>
      match acc.1.PutBSO ts cId it.Id it.Payload it.SortIndex it.TTL with
      | .ok db2 => (db2, acc.2.1 ++ [it.Id], acc.2.2)
      | .error _ => (acc.1, acc.2.1, acc.2.2 ++ [it.Id]))
    (db, [], [])

/-- The sort orders of `getBSOs` (`SORT_NONE`, `SORT_NEWEST`, `SORT_OLDEST`,
`SORT_INDEX`). -/
inductive SortOrder where
  | SORT_NONE
  | SORT_NEWEST
  | SORT_OLDEST
  | SORT_INDEX
deriving DecidableEq, Repr

/-- Modelled from the spec: the ordering relation realised by each `ORDER BY`
clause: `newest` = modified descending, `oldest` = modified ascending,
`index` = sortindex descending with modified descending as tiebreak. -/
def sortLE : SortOrder → BSO → BSO → Prop
  | .SORT_NEWEST, a, b => b.Modified ≤ a.Modified
  | .SORT_OLDEST, a, b => a.Modified ≤ b.Modified
  | .SORT_INDEX, a, b =>
      b.SortIndex < a.SortIndex ∨ (b.SortIndex = a.SortIndex ∧ b.Modified ≤ a.Modified)
  | .SORT_NONE, _, _ => True

instance (s : SortOrder) : DecidableRel (sortLE s) := fun a b => by
  cases s <;> dsimp only [sortLE] <;> infer_instance

instance (s : SortOrder) : IsTotal BSO (sortLE s) := by
  constructor
  intro a b
  cases s <;> dsimp only [sortLE] <;> first | omega | exact Or.inl trivial

instance (s : SortOrder) : IsTrans BSO (sortLE s) := by
  constructor
  intro a b c hab hbc
  cases s <;> dsimp only [sortLE] at * <;> omega

/-- Apply a sort order to a result list; `SORT_NONE` leaves the order as-is
(no `ORDER BY` clause). -/
def sortBSOs (s : SortOrder) (l : List BSO) : List BSO :=
  match s with
  | .SORT_NONE => l
  | _ => l.insertionSort (sortLE s)

/-- The live (non-expired) BSOs of a collection, in row order. -/
def DB.liveBSOsIn (db : DB) (now : Int) (cId : Int) : List BSO :=
  (db.bsos.filter (fun p => p.1 == cId && decide (now < p.2.TTL))).map (·.2)

/-- Restrict to a supplied id set, when one is provided. -/
def idFilter (ids : Option (List String)) (l : List BSO) : List BSO :=
  match ids with
  | some is => l.filter (fun b => is.contains b.Id)
  | none => l

/-- Modelled from the spec: the match set of `getBSOs` before sorting and
pagination: live BSOs of the collection, restricted to the id set when one is
provided, then filtered by `modified > newer`. -/
def DB.matchingBSOs (db : DB) (now : Int) (cId : Int) (ids : Option (List String))
    (newer : Int) : List BSO :=
  (idFilter ids (db.liveBSOsIn now cId)).filter (fun b => decide (newer < b.Modified))

/-- Result of `getBSOs` (`GetResults` in Go): the page of BSOs, the total
number of matches, whether more remain, and the next offset. -/
structure GetResults where
  BSOs : List BSO
  Total : Int
  More : Bool
  Offset : Int
deriving DecidableEq, Repr

/-- Modelled from the spec: private `getBSOs(cid, ids?, newer, sort, limit,
offset)`: validates `newer ≥ 0`, `limit ≥ 1`, `offset ≥ 0` (failing with the
corresponding `Invalid` error), then filters, sorts and paginates. -/
def DB.getBSOs (db : DB) (now : Int) (cId : Int) (ids : Option (List String))
    (newer : Int) (sort : SortOrder) (limit : Int) (offset : Int) :
    Except Err GetResults :=
  if newer < 0 then .error .InvalidNewer
  else if limit < 1 then .error .InvalidLimit
  else if offset < 0 then .error .InvalidOffset
  else
    let ms := db.matchingBSOs now cId ids newer
    let page := ((sortBSOs sort ms).drop offset.toNat).take limit.toNat
    .ok { BSOs := page
          Total := ms.length
          More := decide (offset + limit < ms.length)
          Offset := offset + page.length }

/- ## HTTP-layer query validation -/

/-- Modelled from the spec: RequestCoordinator validation of the GET
collection query parameters (`none` models an absent or empty parameter):
`limit ≥ 1`, `offset ≥ 0`, `newer ≥ 0`, `sort ∈ {newest, oldest, index}`. -/
def validGetQuery (limit offset newer : Option Int) (sort : Option String) : Bool :=
  (match limit with | some l => decide (1 ≤ l) | none => true) &&
  (match offset with | some o => decide (0 ≤ o) | none => true) &&
  (match newer with | some n => decide (0 ≤ n) | none => true) &&
  (match sort with
   | some s => ["newest", "oldest", "index"].contains s
   | none => true)

/-- Modelled from the spec: the HTTP status of a GET on a collection, as far
as query validation decides it: invalid query parameters yield 400, valid
ones proceed (200). -/
def collectionGETStatus (limit offset newer : Option Int) (sort : Option String) : Nat :=
  if validGetQuery limit offset newer sort then 200 else 400

/- ## PathMapper -/

/-- Modelled from the spec and `syncPoolHandler_elements_test.go`: the
two-level directory fan-out of a uid.  The digits are taken from the end of
the uid in reverse: `"1234567" → ["76", "54"]`; uids shorter than 4 digits
use only the last-two-digit (reversed) directory. -/
def TwoLevelPath (uid : String) : List String :=
  let rev : List Char := uid.data.reverse
  if 4 ≤ rev.length then
    [⟨rev.take 2⟩, ⟨(rev.drop 2).take 2⟩]
  else
    [⟨rev.take 2⟩]

/-- Modelled from the spec: the full physical location of a user database:
the directory components from `TwoLevelPath` plus the file `<uid>.db`. -/
def PathAndFile (uid : String) : List String × String :=
  (TwoLevelPath uid, uid ++ ".db")

/-- A valid uid: a non-empty string of decimal digits. -/
def validUid (uid : String) : Bool :=
  uid.length > 0 && uid.data.all Char.isDigit

/- ## CacheHandler (embedded from src/web/cacheHandler.go) -/

/-- The authenticated session attached to a request's context; the handler
only consumes the uid string (`session.Token.UidString()`). -/
structure Session where
  uid : String
deriving DecidableEq, Repr

inductive Method where
  | GET
  | POST
  | PUT
  | DELETE
  | OTHER
deriving DecidableEq, Repr

/-- A request path, pre-classified against the two route regexes
(`^/1\.5/([0-9]+)/info/collections$` and the configuration variant);
`other` covers every path matching neither shape. -/
inductive ReqPath where
  | infoCollections (uid : String)
  | infoConfiguration (uid : String)
  | other (p : String)
deriving DecidableEq, Repr

/-- `infoCollectionsRoute.MatchString`: the uid segment must be `[0-9]+`. -/
def matchesInfoCollections : ReqPath → Bool
  | .infoCollections u => validUid u
  | _ => false

/-- `infoConfigurationRoute.MatchString`. -/
def matchesInfoConfiguration : ReqPath → Bool
  | .infoConfiguration u => validUid u
  | _ => false

structure Request where
  method : Method
  path : ReqPath
  session : Option Session
  xIfModifiedSince : Option Int
deriving DecidableEq, Repr

/-- The bigcache keyed by strings; `cacheGet` is `none` exactly when
`cache.Get` returns an error (missing entry). -/
abbrev Cache := List (String × String)

def cacheGet (c : Cache) (k : String) : Option String :=
  (c.find? (fun p => p.1 == k)).map (·.2)

def cacheSet (c : Cache) (k v : String) : Cache :=
  (k, v) :: c.filter (fun p => p.1 != k)

/-- `lastModifiedKey(uid) = "l" + uid`. -/
def lastModifiedKey (uid : String) : String := "l" ++ uid

/-- What the wrapped inner handler answers: status code, body bytes and the
`X-Last-Modified` header it emits. -/
structure InnerResp where
  code : Nat
  body : String
  xLastModified : String
deriving DecidableEq, Repr

structure Response where
  code : Nat
  body : String
  xLastModified : Option String
deriving DecidableEq, Repr

/-- Outcome of one `ServeHTTP` call: the cache afterwards, the response, the
cache state at the moment the request was forwarded to the inner handler
(`none` when it was not forwarded), and the body served straight from the
cache (`none` when the response body did not come from the cache). -/
structure Outcome where
  cache : Cache
  resp : Response
  forwardedState : Option Cache
  fromCache : Option String
deriving DecidableEq, Repr

/-- Modelled from the spec: `ConvertTimestamp` parses the wire form (decimal
seconds with two fractional digits) into hundredths of a second. -/
def convertTimestamp (s : String) : Int :=
  Int.ofNat ((s.data.filter Char.isDigit).foldl (fun acc c => acc * 10 + (c.toNat - 48)) 0)

/-- Modelled from the spec: `sentNotModified` responds 304 when the cached
last-modified is not newer than the request's modified-since precondition. -/
def sentNotModified (req : Request) (modified : Int) : Bool :=
  match req.xIfModifiedSince with
  | some t => decide (modified ≤ t)
  | none => false

/-- The fall-through tail of `CacheHandler.infoCollection`: forward to the
inner handler and, on a `200 OK`, store the captured body under `<uid>` and
the emitted `X-Last-Modified` under `l<uid>`. -/
def fillCollection (inner : Request → InnerResp) (cache : Cache) (uid : String)
    (req : Request) : Outcome :=
  let r := inner req
  let cache2 :=
    if r.code = 200 then
      cacheSet (cacheSet cache uid r.body) (lastModifiedKey uid) r.xLastModified
    else cache
  { cache := cache2
    resp := { code := r.code, body := r.body, xLastModified := some r.xLastModified }
    forwardedState := some cache, fromCache := none }

/-- `CacheHandler.infoCollection`: serve 304 or the cached body when the
`l<uid>` and `<uid>` entries are present and non-empty; otherwise fall
through to `fillCollection`. -/
def infoCollection (inner : Request → InnerResp) (cache : Cache) (uid : String)
    (req : Request) : Outcome :=
  match cacheGet cache (lastModifiedKey uid) with
  | some lm =>
    if lm.length > 0 then
      if sentNotModified req (convertTimestamp lm) then
        { cache := cache
          resp := { code := 304, body := "", xLastModified := none }
          forwardedState := none, fromCache := none }
      else
        match cacheGet cache uid with
        | some data =>
          if data.length > 0 then
            { cache := cache
              resp := { code := 200, body := data, xLastModified := some lm }
              forwardedState := none, fromCache := some data }
          else fillCollection inner cache uid req
        | none => fillCollection inner cache uid req
    else fillCollection inner cache uid req
  | none => fillCollection inner cache uid req

/-- The fall-through tail of `CacheHandler.infoConfiguration`. -/
def fillConfiguration (inner : Request → InnerResp) (cache : Cache)
    (req : Request) : Outcome :=
  let r := inner req
  let cache2 := if r.code = 200 then cacheSet cache "config" r.body else cache
  { cache := cache2
    resp := { code := r.code, body := r.body, xLastModified := some r.xLastModified }
    forwardedState := some cache, fromCache := none }

/-- `CacheHandler.infoConfiguration`: serve the global `config` entry when
present and non-empty, else forward and store the body on a 200. -/
def infoConfiguration (inner : Request → InnerResp) (cache : Cache)
    (req : Request) : Outcome :=
  match cacheGet cache "config" with
  | some data =>
    if data.length > 0 then
      { cache := cache
        resp := { code := 200, body := data, xLastModified := none }
        forwardedState := none, fromCache := some data }
    else fillConfiguration inner cache req
  | none => fillConfiguration inner cache req

/-- `CacheHandler.ServeHTTP`: 400 without a session; GETs matching the two
info routes go through the cache; every other request first clears both of
the user's cache entries when the method is POST, PUT or DELETE, and is then
forwarded. -/
def serveHTTP (inner : Request → InnerResp) (cache : Cache) (req : Request) :
    Outcome :=
  match req.session with
  | none =>
    { cache := cache
      resp := { code := 400, body := "", xLastModified := none }
      forwardedState := none, fromCache := none }
  | some sess =>
    let uid := sess.uid
    if req.method = .GET ∧ matchesInfoCollections req.path then
      infoCollection inner cache uid req
    else if req.method = .GET ∧ matchesInfoConfiguration req.path then
      infoConfiguration inner cache req
    else
      let cache2 :=
        if req.method = .POST ∨ req.method = .PUT ∨ req.method = .DELETE then
          cacheSet (cacheSet cache (lastModifiedKey uid) "") uid ""
        else cache
      let r := inner req
      { cache := cache2
        resp := { code := r.code, body := r.body, xLastModified := some r.xLastModified }
        forwardedState := some cache2, fromCache := none }

/-- Does a request ask for `info/collections` on behalf of uid `u`? -/
def isCollectionsGetFor (u : String) (r : Request) : Bool :=
  r.session == some ⟨u⟩ && r.method == .GET && matchesInfoCollections r.path

/-- Whether, somewhere along a request trace, the body `B` is served straight
from the cache as an `info/collections` response for uid `u`. -/
def servedBodyFor (inner : Request → InnerResp) (cache : Cache) (u B : String) :
    List Request → Bool
  | [] => false
  | r :: rs =>
    let o := serveHTTP inner cache r
    (isCollectionsGetFor u r && o.fromCache == some B) ||
      servedBodyFor inner o.cache u B rs

/- ## Concrete stores and requests used in witnesses and counterexamples -/

/-- The store of `TestPrivateUpdateBSOModifiedNotChangedOnTTLTouch`: one BSO
inserted with modified 3 and relative ttl 10. -/
def ttlTouchDB0 : DB := newDB.insertBSO 1 "testBSO" 3 "hello" 1 10

/-- The same store after a pure TTL touch (`PutBSO` supplying only ttl 15
seconds) at transaction timestamp 5. -/
def ttlTouchDB1 : DB :=
  match ttlTouchDB0.PutBSO 5 1 "testBSO" none none (some 15) with
  | .ok d => d
  | .error _ => ttlTouchDB0

/-- The three-item batch posted by `TestCollectionDELETE`. -/
def c3Items : List PostItem :=
  [⟨"bso1", some "initial payload", some 1, some 2100000⟩,
   ⟨"bso2", some "initial payload", some 1, some 2100000⟩,
   ⟨"bso3", some "initial payload", some 1, some 2100000⟩]

/-- Fresh store after creating the user collection `my_collection`. -/
def c3dbA : DB :=
  match newDB.CreateCollection "my_collection" with
  | .ok p => p.1
  | .error _ => newDB

/-- ... then posting the three BSOs into it (collection id 100). -/
def c3dbB : DB := (c3dbA.PostBSOs 50 100 c3Items).1

/-- ... then deleting the collection. -/
def c3dbC : DB :=
  match c3dbB.DeleteCollection 100 with
  | .ok d => d
  | .error _ => c3dbB

/-- Scenario 6 of the spec: first batch into `bookmarks` (id 7). -/
def c9db1 : DB :=
  (newDB.PostBSOs 10 7
    [⟨"bso1", some "a", some 1, none⟩,
     ⟨"bso2", some "a", some 1, none⟩,
     ⟨"bso3", some "a", some 1, none⟩]).1

/-- Scenario 6 of the spec: second batch supplying only one field each. -/
def c9db2 : DB :=
  (c9db1.PostBSOs 20 7
    [⟨"bso1", none, some 2, none⟩,
     ⟨"bso2", some "b", none, none⟩]).1

/-- The first-batch store after updating just bso1's sortindex. -/
def c9bso1Touched : DB :=
  match c9db1.PutBSO 20 7 "bso1" none (some 2) none with
  | .ok d => d
  | .error _ => c9db1

/-- The store of `TestPrivateGetBSOsSort`: b2 oldest with sortindex 2,
b1 next with sortindex 0, b0 newest with sortindex 1. -/
def sortTestDB : DB :=
  ((newDB.insertBSO 1 "b2" 98 "a" 2 100000).insertBSO 1 "b1" 99 "a" 0 100000).insertBSO
    1 "b0" 100 "a" 1 100000

/-- `getBSOs` on the sort-test store under each requested order. -/
def sortResult (s : SortOrder) : GetResults :=
  match sortTestDB.getBSOs 0 1 none 0 s 10 0 with
  | .ok r => r
  | .error _ => ⟨[], 0, false, 0⟩

/-- `getBSOs` on the sort-test store restricted to ids b0 and b2, newer 98. -/
def newerResult : GetResults :=
  match sortTestDB.getBSOs 0 1 (some ["b0", "b2"]) 98 SortOrder.SORT_NEWEST 10 0 with
  | .ok r => r
  | .error _ => ⟨[], 0, false, 0⟩

/-- An inner handler answering 200 with a fixed fresh body. -/
def innerOK : Request → InnerResp :=
  fun _ => { code := 200, body := "fresh", xLastModified := "100.00" }

/-- A mutating request for uid 123. -/
def mutReq : Request :=
  { method := .POST, path := .other "/1.5/123/storage/bookmarks",
    session := some ⟨"123"⟩, xIfModifiedSince := none }

/-- A cacheable `info/collections` GET for uid 123. -/
def getColReq : Request :=
  { method := .GET, path := .infoCollections "123",
    session := some ⟨"123"⟩, xIfModifiedSince := none }

/-- A request carrying no session in its context. -/
def noSessionReq : Request :=
  { method := .PUT, path := .other "/1.5/123/storage/bookmarks",
    session := none, xIfModifiedSince := none }

/- ## Helper lemmas -/

theorem foldl_max_init (l : List (String × Int)) (a : Int) :
    a ≤ l.foldl (fun m p => max m p.2) a := by
  induction l generalizing a with
  | nil => simp
  | cons hd tl ih => exact le_trans (le_max_left _ _) (ih (max a hd.2))

theorem mem_le_foldl_max (l : List (String × Int)) (a : Int) (p : String × Int)
    (hp : p ∈ l) : p.2 ≤ l.foldl (fun m q => max m q.2) a := by
  induction l generalizing a with
  | nil => cases hp
  | cons hd tl ih =>
    rcases List.mem_cons.mp hp with h | h
    · subst h
      exact le_trans (le_max_right _ _) (foldl_max_init _ _)
    · exact ih (max a hd.2) h

theorem string_append_right_injective (u v s : String) (h : u ++ s = v ++ s) :
    u = v := by
  apply String.ext
  have hd := congrArg String.data h
  rw [String.data_append, String.data_append] at hd
  exact List.append_cancel_right hd

theorem findB_cons (x : Int × BSO) (xs : List (Int × BSO)) (cId : Int) (bId : String) :
    findB (x :: xs) cId bId =
      if x.1 == cId && x.2.Id == bId then some x.2 else findB xs cId bId := by
  unfold findB
  cases hb : (x.1 == cId && x.2.Id == bId) with
  | true => simp [List.find?_cons, hb]
  | false => simp [List.find?_cons, hb]

theorem findB_some (l : List (Int × BSO)) (cId : Int) (bId : String) (b : BSO)
    (h : findB l cId bId = some b) :
    (cId, b) ∈ l ∧ b.Id = bId := by
  unfold findB at h
  rcases Option.map_eq_some.mp h with ⟨p, hfind, hsnd⟩
  have hmem := List.mem_of_find?_eq_some hfind
  have hpred := List.find?_some hfind
  rw [Bool.and_eq_true, beq_iff_eq, beq_iff_eq] at hpred
  subst hsnd
  rw [← hpred.1]
  exact ⟨hmem, hpred.2⟩

theorem findB_replace (l : List (Int × BSO)) (cId : Int) (bId : String) (b : BSO)
    (hid : b.Id = bId) (h : (findB l cId bId).isSome) :
    findB (l.map (fun p => if p.1 == cId && p.2.Id == bId then (p.1, b) else p))
      cId bId = some b := by
  induction l with
  | nil => simp [findB] at h
  | cons hd tl ih =>
    by_cases hm : (hd.1 == cId && hd.2.Id == bId) = true
    · rw [List.map_cons, if_pos hm, findB_cons]
      have : ((hd.1, b).1 == cId && (hd.1, b).2.Id == bId) = true := by
        rw [Bool.and_eq_true] at hm ⊢
        exact ⟨hm.1, by rw [beq_iff_eq]; exact hid⟩
      rw [if_pos this]
    · rw [List.map_cons, if_neg hm, findB_cons, if_neg hm]
      apply ih
      rw [findB_cons, if_neg hm] at h
      exact h

/-- What a pure-ttl-touch `PutBSO` does to an existing record, unpacked once
and shared by several claims: supplied fields take their new values, omitted
fields keep the old values, `Modified` is bumped only when payload or
sortindex is supplied. -/
theorem putBSO_update_characterization (db db2 : DB) (ts cId : Int) (bId : String)
    (payload : Option String) (sortIndex : Option Int) (ttlSeconds : Option Int)
    (old : BSO) (hold : db.findBSO cId bId = some old)
    (h : db.PutBSO ts cId bId payload sortIndex ttlSeconds = .ok db2) :
    db2.findBSO cId bId = some
      { Id := old.Id
        Modified := if payload.isSome || sortIndex.isSome then ts else old.Modified
        Payload := payload.getD old.Payload
        SortIndex := sortIndex.getD old.SortIndex
        TTL := (ttlSeconds.map (fun t => ts + t * 100)).getD old.TTL } := by
  have hsome : (db.findBSO cId bId).isSome := by rw [hold]; rfl
  unfold DB.PutBSO DB.putBSO at h
  rw [if_pos hsome] at h
  unfold DB.updateBSO at h
  by_cases hall : (payload.isNone && sortIndex.isNone &&
      (Option.map (fun x => x * 100) ttlSeconds).isNone) = true
  · rw [if_pos hall] at h
    cases h
  · rw [if_neg hall, hold] at h
    have hid : old.Id = bId := (findB_some _ _ _ _ hold).2
    cases ttlSeconds with
    | none =>
      have hdb2 : db2 = db.replaceBSO cId bId
          { Id := old.Id
            Modified := if payload.isSome || sortIndex.isSome then ts else old.Modified
            Payload := payload.getD old.Payload
            SortIndex := sortIndex.getD old.SortIndex
            TTL := old.TTL } := by
        cases h
        rfl
      subst hdb2
      unfold DB.replaceBSO DB.findBSO
      exact findB_replace db.bsos cId bId _ hid hsome
    | some t =>
      have hdb2 : db2 = db.replaceBSO cId bId
          { Id := old.Id
            Modified := if payload.isSome || sortIndex.isSome then ts else old.Modified
            Payload := payload.getD old.Payload
            SortIndex := sortIndex.getD old.SortIndex
            TTL := ts + t * 100 } := by
        cases h
        rfl
      subst hdb2
      unfold DB.replaceBSO DB.findBSO
      exact findB_replace db.bsos cId bId _ hid hsome

/- ## Claim theorems -/

/-- C7: the uid → on-disk path mapping is deterministic (it is a function);
for uid `"1234567"` it yields directory components `["76", "54"]` and file
`"1234567.db"`; uids shorter than 4 digits yield a single directory
component; and distinct valid uids never collide on the full path. -/
theorem pathMapper_correct (u1 u2 : String)
    (_h1 : validUid u1 = true) (_h2 : validUid u2 = true) (hne : u1 ≠ u2) :
    PathAndFile "1234567" = (["76", "54"], "1234567.db") ∧
    (u1.length < 4 → (TwoLevelPath u1).length = 1) ∧
    PathAndFile u1 ≠ PathAndFile u2 := by
  refine ⟨by decide, ?_, ?_⟩
  · intro hlen
    unfold TwoLevelPath
    rw [if_neg]
    · rfl
    · simpa using hlen
  · intro h
    apply hne
    have hfile : u1 ++ ".db" = u2 ++ ".db" := congrArg Prod.snd h
    exact string_append_right_injective _ _ _ hfile

/-- C7 witness: a concrete instantiation with uids `"123"` and `"1234567"`. -/
theorem pathMapper_correct_witness :
    PathAndFile "1234567" = (["76", "54"], "1234567.db") ∧
    ((("123" : String)).length < 4 → (TwoLevelPath "123").length = 1) ∧
    PathAndFile "123" ≠ PathAndFile "1234567" :=
  pathMapper_correct "123" "1234567" (by decide) (by decide) (by decide)

/-- C10: a request whose context carries no session is answered with HTTP 400
and is never forwarded to the inner handler, whatever its method and path;
the cache is left untouched. -/
theorem cacheHandler_no_session_400 (inner : Request → InnerResp)
    (cache : Cache) (req : Request) (h : req.session = none) :
    (serveHTTP inner cache req).resp.code = 400 ∧
    (serveHTTP inner cache req).forwardedState = none ∧
    (serveHTTP inner cache req).cache = cache := by
  unfold serveHTTP
  rw [h]
  exact ⟨rfl, rfl, rfl⟩

/-- C10 witness: the concrete session-less PUT request. -/
theorem cacheHandler_no_session_400_witness :
    (serveHTTP innerOK [] noSessionReq).resp.code = 400 ∧
    (serveHTTP innerOK [] noSessionReq).forwardedState = none ∧
    (serveHTTP innerOK [] noSessionReq).cache = [] :=
  cacheHandler_no_session_400 innerOK [] noSessionReq rfl

/-- C8: a freshly created UserStore pre-seeds the eleven well-known
collections with their fixed ids, `GetCollectionId` resolves each of them,
the first user-defined collection is allocated id 100, and every allocation
yields an id that is at least 100 and strictly above every existing id. -/
theorem static_collections_and_first_custom_id (db db2 : DB) (name : String)
    (id : Int) (h : db.CreateCollection name = .ok (db2, id)) :
    (newDB.GetCollectionId "clients" = .ok 1 ∧
     newDB.GetCollectionId "crypto" = .ok 2 ∧
     newDB.GetCollectionId "forms" = .ok 3 ∧
     newDB.GetCollectionId "history" = .ok 4 ∧
     newDB.GetCollectionId "keys" = .ok 5 ∧
     newDB.GetCollectionId "meta" = .ok 6 ∧
     newDB.GetCollectionId "bookmarks" = .ok 7 ∧
     newDB.GetCollectionId "prefs" = .ok 8 ∧
     newDB.GetCollectionId "tabs" = .ok 9 ∧
     newDB.GetCollectionId "passwords" = .ok 10 ∧
     newDB.GetCollectionId "addons" = .ok 11) ∧
    (newDB.CreateCollection "col1").map Prod.snd = .ok 100 ∧
    (100 ≤ id ∧ ∀ p ∈ db.collections, p.2 < id) := by
  refine ⟨⟨rfl, rfl, rfl, rfl, rfl, rfl, rfl, rfl, rfl, rfl, rfl⟩, rfl, ?_⟩
  unfold DB.CreateCollection at h
  by_cases hex : (db.collections.find? (fun p => p.1 == name)).isSome
  · rw [if_pos hex] at h
    cases h
  · rw [if_neg hex] at h
    have hid : id = max 100 (db.maxCollectionId + 1) := by
      cases h
      rfl
    constructor
    · rw [hid]
      exact le_max_left _ _
    · intro p hp
      have hle : p.2 ≤ db.maxCollectionId := mem_le_foldl_max _ 0 p hp
      rw [hid]
      have : p.2 < db.maxCollectionId + 1 := by omega
      exact lt_of_lt_of_le this (le_max_right _ _)

/-- C8 witness: the concrete first allocation on a fresh store. -/
theorem static_collections_and_first_custom_id_witness :
    (newDB.GetCollectionId "clients" = .ok 1 ∧
     newDB.GetCollectionId "crypto" = .ok 2 ∧
     newDB.GetCollectionId "forms" = .ok 3 ∧
     newDB.GetCollectionId "history" = .ok 4 ∧
     newDB.GetCollectionId "keys" = .ok 5 ∧
     newDB.GetCollectionId "meta" = .ok 6 ∧
     newDB.GetCollectionId "bookmarks" = .ok 7 ∧
     newDB.GetCollectionId "prefs" = .ok 8 ∧
     newDB.GetCollectionId "tabs" = .ok 9 ∧
     newDB.GetCollectionId "passwords" = .ok 10 ∧
     newDB.GetCollectionId "addons" = .ok 11) ∧
    (newDB.CreateCollection "col1").map Prod.snd = .ok 100 ∧
    (100 ≤ (100 : Int) ∧ ∀ p ∈ newDB.collections, p.2 < 100) :=
  static_collections_and_first_custom_id newDB
    { newDB with collections := newDB.collections ++ [("col1", 100)] }
    "col1" 100 rfl

/-- C1 (amended): a `PutBSO` supplying only ttl on an existing BSO leaves
`Modified` unchanged, and a subsequent `GetBSO` observes
`ttl_absolute = ts + t * 100` where `ts` is the touching transaction's
timestamp (not the prior modified timestamp) and `t` the supplied ttl. -/
theorem ttl_touch_preserves_modified (db db2 : DB) (ts cId : Int) (bId : String)
    (t : Int) (old : BSO) (hold : db.findBSO cId bId = some old)
    (h : db.PutBSO ts cId bId none none (some t) = .ok db2)
    (now : Int) (hnow : now < ts + t * 100) :
    ∃ b, db2.GetBSO now cId bId = .ok b ∧ b.Modified = old.Modified ∧
      b.TTL = ts + t * 100 := by
  have hc := putBSO_update_characterization db db2 ts cId bId none none (some t)
    old hold h
  have hget : db2.GetBSO now cId bId = .ok
      { Id := old.Id, Modified := old.Modified, Payload := old.Payload,
        SortIndex := old.SortIndex, TTL := ts + t * 100 } := by
    unfold DB.GetBSO
    rw [show db2.findBSO cId bId = some
      { Id := old.Id, Modified := old.Modified, Payload := old.Payload,
        SortIndex := old.SortIndex, TTL := ts + t * 100 } from hc]
    dsimp only
    rw [if_pos hnow]
  exact ⟨_, hget, rfl, rfl⟩

/-- C1 witness: the touch of `TestPrivateUpdateBSOModifiedNotChangedOnTTLTouch`
(insert at modified 3, touch with ttl 15 at transaction timestamp 5). -/
theorem ttl_touch_preserves_modified_witness :
    ∃ b, ttlTouchDB1.GetBSO 20 1 "testBSO" = .ok b ∧ b.Modified = 3 ∧
      b.TTL = 5 + 15 * 100 := by
  have h := ttl_touch_preserves_modified ttlTouchDB0 ttlTouchDB1 5 1 "testBSO" 15
    { Id := "testBSO", Modified := 3, Payload := "hello", SortIndex := 1, TTL := 13 }
    rfl rfl 20 (by decide)
  simpa using h

/-- C1 counterexample: at the concrete input of the repository's own test
(prior modified 3, transaction timestamp 5, supplied ttl 15), the observed
`ttl_absolute` is `5 + 15 * 100 = 1505`, while the claim's
`prior_modified + t * 100 = 3 + 15 * 100 = 1503`; the two differ. -/
theorem ttl_touch_counterexample :
    ∃ b, ttlTouchDB1.GetBSO 20 1 "testBSO" = .ok b ∧ b.Modified = 3 ∧
      b.TTL = 5 + 15 * 100 ∧ b.TTL ≠ 3 + 15 * 100 :=
  ⟨_, rfl, rfl, rfl, by decide⟩

/-- C9: a `PutBSO`/POST-item update of an existing BSO takes the supplied
fields and keeps every omitted field at its previous value; in particular,
in the spec's scenario 6 bso1 keeps payload `"a"` with new sortindex 2 and
bso2 takes payload `"b"` keeping sortindex 1. -/
theorem post_partial_update_frame (db db2 : DB) (ts cId : Int) (bId : String)
    (payload : Option String) (sortIndex : Option Int) (ttlSeconds : Option Int)
    (old : BSO) (hold : db.findBSO cId bId = some old)
    (h : db.PutBSO ts cId bId payload sortIndex ttlSeconds = .ok db2) :
    (∃ b, db2.findBSO cId bId = some b ∧
       b.Payload = payload.getD old.Payload ∧
       b.SortIndex = sortIndex.getD old.SortIndex ∧
       (ttlSeconds = none → b.TTL = old.TTL)) ∧
    ((∃ b1, c9db2.GetBSO 30 7 "bso1" = .ok b1 ∧ b1.Payload = "a" ∧
        b1.SortIndex = 2) ∧
     (∃ b2, c9db2.GetBSO 30 7 "bso2" = .ok b2 ∧ b2.Payload = "b" ∧
        b2.SortIndex = 1)) := by
  have hc := putBSO_update_characterization db db2 ts cId bId payload sortIndex
    ttlSeconds old hold h
  refine ⟨⟨_, hc, rfl, rfl, fun hts => by subst hts; rfl⟩,
    ⟨_, rfl, rfl, rfl⟩, ⟨_, rfl, rfl, rfl⟩⟩

/-- C9 witness: applying the frame property to the first batch's bso1. -/
theorem post_partial_update_frame_witness :
    (∃ b, c9bso1Touched.findBSO 7 "bso1" = some b ∧
       b.Payload = (none : Option String).getD "a" ∧
       b.SortIndex = (some 2 : Option Int).getD 1 ∧
       ((none : Option Int) = none → b.TTL = 10 + DEFAULT_BSO_TTL)) ∧
    ((∃ b1, c9db2.GetBSO 30 7 "bso1" = .ok b1 ∧ b1.Payload = "a" ∧
        b1.SortIndex = 2) ∧
     (∃ b2, c9db2.GetBSO 30 7 "bso2" = .ok b2 ∧ b2.Payload = "b" ∧
        b2.SortIndex = 1)) :=
  post_partial_update_frame c9db1 c9bso1Touched 20 7 "bso1" none (some 2) none
    { Id := "bso1", Modified := 10, Payload := "a", SortIndex := 1,
      TTL := 10 + DEFAULT_BSO_TTL }
    rfl rfl

/-- C3: once a collection is deleted, looking its name up yields `NotFound`,
every BSO that was in it yields `NotFound`, and the new state contains
neither its row nor any of its BSOs — both removed by the one transaction. -/
theorem delete_collection_removes_all (db db2 : DB) (name : String) (cId : Int)
    (huniq : ∀ p ∈ db.collections, p.1 = name → p.2 = cId)
    (_h1 : db.GetCollectionId name = .ok cId)
    (h2 : db.DeleteCollection cId = .ok db2) :
    db2.GetCollectionId name = .error .NotFound ∧
    (∀ now bId, db2.GetBSO now cId bId = .error .NotFound) ∧
    (∀ p ∈ db2.bsos, p.1 ≠ cId) ∧
    (∀ q ∈ db2.collections, q.2 ≠ cId) := by
  unfold DB.DeleteCollection at h2
  by_cases hex : (db.collections.find? (fun p => p.2 == cId)).isSome
  · rw [if_pos hex] at h2
    have hdb2 : db2 =
        { collections := db.collections.filter (fun p => p.2 != cId),
          bsos := db.bsos.filter (fun p => p.1 != cId) } := by
      cases h2
      rfl
    subst hdb2
    have hcols : ∀ q ∈ db.collections.filter (fun p => p.2 != cId), q.2 ≠ cId := by
      intro q hq
      have := (List.mem_filter.mp hq).2
      simpa using this
    have hbs : ∀ p ∈ db.bsos.filter (fun p => p.1 != cId), p.1 ≠ cId := by
      intro p hp
      have := (List.mem_filter.mp hp).2
      simpa using this
    refine ⟨?_, ?_, hbs, hcols⟩
    · unfold DB.GetCollectionId
      cases hf : (db.collections.filter (fun p => p.2 != cId)).find?
          (fun p => p.1 == name) with
      | none => rfl
      | some q =>
        exfalso
        have hqmem := List.mem_of_find?_eq_some hf
        have hqname : q.1 = name := by
          have := List.find?_some hf
          simpa using this
        have hqcid : q.2 = cId :=
          huniq q (List.mem_of_mem_filter hqmem) hqname
        exact hcols q hqmem hqcid
    · intro now bId
      unfold DB.GetBSO
      cases hf : DB.findBSO
          { collections := db.collections.filter (fun p => p.2 != cId),
            bsos := db.bsos.filter (fun p => p.1 != cId) } cId bId with
      | none => rfl
      | some b =>
        exfalso
        have := (findB_some _ cId bId b hf).1
        exact hbs _ this rfl
  · rw [if_neg hex] at h2
    cases h2

/-- C3 witness: `my_collection` (id 100) with three posted BSOs, then the
collection deleted. -/
theorem delete_collection_removes_all_witness :
    c3dbC.GetCollectionId "my_collection" = .error .NotFound ∧
    c3dbC.GetBSO 60 100 "bso1" = .error .NotFound ∧
    c3dbC.GetBSO 60 100 "bso2" = .error .NotFound ∧
    c3dbC.GetBSO 60 100 "bso3" = .error .NotFound := by
  have h := delete_collection_removes_all c3dbB c3dbC "my_collection" 100
    (by decide) rfl rfl
  exact ⟨h.1, h.2.1 60 "bso1", h.2.1 60 "bso2", h.2.1 60 "bso3"⟩

theorem mem_live (l : List (Int × BSO)) (now cId : Int) (b : BSO) :
    (b ∈ (l.filter (fun p => p.1 == cId && decide (now < p.2.TTL))).map (·.2)) ↔
      ((cId, b) ∈ l ∧ now < b.TTL) := by
  constructor
  · intro h
    rcases List.mem_map.mp h with ⟨p, hp, hpb⟩
    rcases List.mem_filter.mp hp with ⟨hmem, hpred⟩
    rw [Bool.and_eq_true, beq_iff_eq] at hpred
    rcases hpred with ⟨hp1, hp2⟩
    rw [decide_eq_true_iff] at hp2
    cases p with
    | mk c bb =>
      dsimp only at hp1 hpb hp2
      subst hp1
      subst hpb
      exact ⟨hmem, hp2⟩
  · rintro ⟨hmem, httl⟩
    apply List.mem_map.mpr
    refine ⟨(cId, b), List.mem_filter.mpr ⟨hmem, ?_⟩, rfl⟩
    rw [Bool.and_eq_true, beq_iff_eq]
    exact ⟨rfl, by rw [decide_eq_true_iff]; exact httl⟩

theorem mem_matchingBSOs (db : DB) (now cId : Int) (ids : Option (List String))
    (newer : Int) (b : BSO) :
    b ∈ db.matchingBSOs now cId ids newer ↔
      ((cId, b) ∈ db.bsos ∧ now < b.TTL ∧
       (∀ l, ids = some l → b.Id ∈ l) ∧ newer < b.Modified) := by
  unfold DB.matchingBSOs DB.liveBSOsIn
  rw [List.mem_filter, decide_eq_true_iff]
  cases ids with
  | none =>
    unfold idFilter
    rw [mem_live]
    constructor
    · rintro ⟨⟨hmem, httl⟩, hnew⟩
      exact ⟨hmem, httl, (fun l hl => by cases hl), hnew⟩
    · rintro ⟨hmem, httl, _, hnew⟩
      exact ⟨⟨hmem, httl⟩, hnew⟩
  | some ws =>
    unfold idFilter
    rw [List.mem_filter, mem_live]
    constructor
    · rintro ⟨⟨⟨hmem, httl⟩, hinl⟩, hnew⟩
      refine ⟨hmem, httl, fun l hl => ?_, hnew⟩
      cases hl
      exact List.elem_iff.mp hinl
    · rintro ⟨hmem, httl, hin, hnew⟩
      exact ⟨⟨⟨hmem, httl⟩, List.elem_iff.mpr (hin ws rfl)⟩, hnew⟩

theorem sortBSOs_perm (s : SortOrder) (l : List BSO) :
    List.Perm (sortBSOs s l) l := by
  cases s with
  | SORT_NONE => exact List.Perm.refl l
  | SORT_NEWEST => exact List.perm_insertionSort _ l
  | SORT_OLDEST => exact List.perm_insertionSort _ l
  | SORT_INDEX => exact List.perm_insertionSort _ l

theorem pairwise_true (l : List BSO) : l.Pairwise (fun _ _ => True) := by
  induction l with
  | nil => exact List.Pairwise.nil
  | cons a t ih => exact List.Pairwise.cons (fun b _ => trivial) ih

theorem sortBSOs_sorted (s : SortOrder) (l : List BSO) :
    (sortBSOs s l).Sorted (sortLE s) := by
  cases s with
  | SORT_NONE => exact pairwise_true l
  | SORT_NEWEST => exact List.sorted_insertionSort _ l
  | SORT_OLDEST => exact List.sorted_insertionSort _ l
  | SORT_INDEX => exact List.sorted_insertionSort _ l

/-- Unpack a successful `getBSOs` call into its pieces. -/
theorem getBSOs_ok (db : DB) (now cId : Int) (ids : Option (List String))
    (newer : Int) (sort : SortOrder) (limit offset : Int) (res : GetResults)
    (h : db.getBSOs now cId ids newer sort limit offset = .ok res) :
    res.BSOs = ((sortBSOs sort (db.matchingBSOs now cId ids newer)).drop
        offset.toNat).take limit.toNat ∧
    res.Total = (db.matchingBSOs now cId ids newer).length := by
  unfold DB.getBSOs at h
  split_ifs at h
  cases h
  exact ⟨rfl, rfl⟩

theorem sorted_page (s : SortOrder) (l : List BSO) (m n : Nat) :
    (((sortBSOs s l).drop m).take n).Sorted (sortLE s) :=
  List.Pairwise.sublist
    ((List.take_sublist _ _).trans (List.drop_sublist _ _))
    (sortBSOs_sorted s l)

/-- C4: `getBSOs` matches exactly the non-expired BSOs of the collection that
pass the id-set restriction (when one is supplied) and have
`modified > newer` — strictly, so `modified = newer` is excluded; the total
counts that match set and every returned BSO comes from it. -/
theorem getBSOs_newer_filter (db : DB) (now cId : Int) (ids : Option (List String))
    (newer : Int) (sort : SortOrder) (limit offset : Int) (res : GetResults)
    (h : db.getBSOs now cId ids newer sort limit offset = .ok res) :
    (∀ b, b ∈ db.matchingBSOs now cId ids newer ↔
       ((cId, b) ∈ db.bsos ∧ now < b.TTL ∧
        (∀ l, ids = some l → b.Id ∈ l) ∧ newer < b.Modified)) ∧
    res.Total = (db.matchingBSOs now cId ids newer).length ∧
    (∀ b ∈ res.BSOs, b ∈ db.matchingBSOs now cId ids newer) ∧
    (∀ b ∈ res.BSOs, newer < b.Modified) := by
  have hok := getBSOs_ok db now cId ids newer sort limit offset res h
  have hchar := fun b => mem_matchingBSOs db now cId ids newer b
  have hpage : ∀ b ∈ res.BSOs, b ∈ db.matchingBSOs now cId ids newer := by
    intro b hb
    rw [hok.1] at hb
    have hsorted : b ∈ sortBSOs sort (db.matchingBSOs now cId ids newer) :=
      List.drop_subset _ _ (List.take_subset _ _ hb)
    exact (sortBSOs_perm sort _).mem_iff.mp hsorted
  refine ⟨hchar, hok.2, hpage, ?_⟩
  intro b hb
  exact ((hchar b).mp (hpage b hb)).2.2.2

/-- C4 witness: on the sort-test store with ids `{b0, b2}` and `newer = 98`,
only b0 (modified 100) matches; b2 with `modified = 98` is excluded. -/
theorem getBSOs_newer_filter_witness :
    newerResult.Total = 1 ∧
    (∀ b ∈ newerResult.BSOs, 98 < b.Modified) ∧
    ((⟨"b2", 98, "a", 2, 100098⟩ : BSO) ∉
      sortTestDB.matchingBSOs 0 1 (some ["b0", "b2"]) 98) := by
  have h := getBSOs_newer_filter sortTestDB 0 1 (some ["b0", "b2"]) 98
    SortOrder.SORT_NEWEST 10 0 newerResult rfl
  refine ⟨by rw [h.2.1]; rfl, h.2.2.2, fun hmem => ?_⟩
  have hlt := ((h.1 _).mp hmem).2.2.2
  exact absurd hlt (by decide)

/-- C5: `getBSOs` under `sort=newest` returns the page in descending modified
order, under `sort=oldest` in ascending modified order, and under
`sort=index` in descending sortindex order with descending modified as
tiebreak. -/
theorem getBSOs_sort_orders (db : DB) (now cId : Int) (ids : Option (List String))
    (newer limit offset : Int) (r1 r2 r3 : GetResults)
    (h1 : db.getBSOs now cId ids newer SortOrder.SORT_NEWEST limit offset = .ok r1)
    (h2 : db.getBSOs now cId ids newer SortOrder.SORT_OLDEST limit offset = .ok r2)
    (h3 : db.getBSOs now cId ids newer SortOrder.SORT_INDEX limit offset = .ok r3) :
    r1.BSOs.Sorted (fun a b => b.Modified ≤ a.Modified) ∧
    r2.BSOs.Sorted (fun a b => a.Modified ≤ b.Modified) ∧
    r3.BSOs.Sorted (fun a b =>
      b.SortIndex < a.SortIndex ∨
        (b.SortIndex = a.SortIndex ∧ b.Modified ≤ a.Modified)) := by
  have s1 := (getBSOs_ok _ _ _ _ _ _ _ _ _ h1).1
  have s2 := (getBSOs_ok _ _ _ _ _ _ _ _ _ h2).1
  have s3 := (getBSOs_ok _ _ _ _ _ _ _ _ _ h3).1
  refine ⟨?_, ?_, ?_⟩
  · rw [s1]
    exact sorted_page SortOrder.SORT_NEWEST _ _ _
  · rw [s2]
    exact sorted_page SortOrder.SORT_OLDEST _ _ _
  · rw [s3]
    exact sorted_page SortOrder.SORT_INDEX _ _ _

/-- C5 witness: the store of `TestPrivateGetBSOsSort` comes back as
`[b0, b1, b2]` under newest, `[b2, b1, b0]` under oldest and `[b2, b0, b1]`
under index, each sorted for its relation. -/
theorem getBSOs_sort_orders_witness :
    (sortResult SortOrder.SORT_NEWEST).BSOs.map BSO.Id = ["b0", "b1", "b2"] ∧
    (sortResult SortOrder.SORT_OLDEST).BSOs.map BSO.Id = ["b2", "b1", "b0"] ∧
    (sortResult SortOrder.SORT_INDEX).BSOs.map BSO.Id = ["b2", "b0", "b1"] ∧
    (sortResult SortOrder.SORT_NEWEST).BSOs.Sorted
      (fun a b => b.Modified ≤ a.Modified) ∧
    (sortResult SortOrder.SORT_OLDEST).BSOs.Sorted
      (fun a b => a.Modified ≤ b.Modified) ∧
    (sortResult SortOrder.SORT_INDEX).BSOs.Sorted (fun a b =>
      b.SortIndex < a.SortIndex ∨
        (b.SortIndex = a.SortIndex ∧ b.Modified ≤ a.Modified)) := by
  have h := getBSOs_sort_orders sortTestDB 0 1 none 0 10 0
    (sortResult SortOrder.SORT_NEWEST) (sortResult SortOrder.SORT_OLDEST)
    (sortResult SortOrder.SORT_INDEX) rfl rfl rfl
  exact ⟨rfl, rfl, rfl, h.1, h.2.1, h.2.2⟩

theorem status400_of_invalid (lq oq nq : Option Int) (sq : Option String)
    (h : validGetQuery lq oq nq sq = false) :
    collectionGETStatus lq oq nq sq = 400 := by
  unfold collectionGETStatus
  rw [h]
  rfl

theorem status200_of_valid (lq oq nq : Option Int) (sq : Option String)
    (h : validGetQuery lq oq nq sq = true) :
    collectionGETStatus lq oq nq sq = 200 := by
  unfold collectionGETStatus
  rw [h]
  rfl

/-- C6: at the HTTP layer `limit ≤ 0`, `offset < 0`, `newer < 0` or an
unrecognised sort value yield 400 while valid parameters are accepted; at the
store layer `getBSOs` fails with `InvalidNewer` / `InvalidLimit` /
`InvalidOffset` on the corresponding bad argument and succeeds on valid
ones. -/
theorem get_query_validation (db : DB) (now cId : Int) (ids : Option (List String))
    (newer limit offset : Int) (sort : SortOrder)
    (lq oq nq : Option Int) (sq : Option String) :
    (newer < 0 →
      db.getBSOs now cId ids newer sort limit offset = .error .InvalidNewer) ∧
    (0 ≤ newer → limit < 1 →
      db.getBSOs now cId ids newer sort limit offset = .error .InvalidLimit) ∧
    (0 ≤ newer → 1 ≤ limit → offset < 0 →
      db.getBSOs now cId ids newer sort limit offset = .error .InvalidOffset) ∧
    (0 ≤ newer → 1 ≤ limit → 0 ≤ offset →
      ∃ res, db.getBSOs now cId ids newer sort limit offset = .ok res) ∧
    ((∃ l, lq = some l ∧ l < 1) → collectionGETStatus lq oq nq sq = 400) ∧
    ((∃ o, oq = some o ∧ o < 0) → collectionGETStatus lq oq nq sq = 400) ∧
    ((∃ n, nq = some n ∧ n < 0) → collectionGETStatus lq oq nq sq = 400) ∧
    ((∃ s, sq = some s ∧ s ∉ (["newest", "oldest", "index"] : List String)) →
      collectionGETStatus lq oq nq sq = 400) ∧
    ((∀ l, lq = some l → 1 ≤ l) → (∀ o, oq = some o → 0 ≤ o) →
      (∀ n, nq = some n → 0 ≤ n) →
      (∀ s, sq = some s → s ∈ (["newest", "oldest", "index"] : List String)) →
      collectionGETStatus lq oq nq sq = 200) := by
  refine ⟨?_, ?_, ?_, ?_, ?_, ?_, ?_, ?_, ?_⟩
  · intro h1
    unfold DB.getBSOs
    rw [if_pos h1]
  · intro h1 h2
    unfold DB.getBSOs
    rw [if_neg (by omega), if_pos h2]
  · intro h1 h2 h3
    unfold DB.getBSOs
    rw [if_neg (by omega), if_neg (by omega), if_pos h3]
  · intro h1 h2 h3
    unfold DB.getBSOs
    rw [if_neg (by omega), if_neg (by omega), if_neg (by omega)]
    exact ⟨_, rfl⟩
  · rintro ⟨l, hl, hlt⟩
    subst hl
    apply status400_of_invalid
    unfold validGetQuery
    have : decide (1 ≤ l) = false := by simp; omega
    simp [this]
  · rintro ⟨o, ho, hlt⟩
    subst ho
    apply status400_of_invalid
    unfold validGetQuery
    have : decide (0 ≤ o) = false := by simp; omega
    simp [this]
  · rintro ⟨n, hn, hlt⟩
    subst hn
    apply status400_of_invalid
    unfold validGetQuery
    have : decide (0 ≤ n) = false := by simp; omega
    simp [this]
  · rintro ⟨s, hs, hnotin⟩
    subst hs
    apply status400_of_invalid
    unfold validGetQuery
    have hcon : (["newest", "oldest", "index"] : List String).contains s = false := by
      rw [← Bool.not_eq_true]
      intro hc
      exact hnotin (List.elem_iff.mp hc)
    change (_ && (["newest", "oldest", "index"] : List String).contains s) = false
    rw [hcon, Bool.and_false]
  · intro hl ho hn hs
    apply status200_of_valid
    unfold validGetQuery
    simp only [Bool.and_eq_true]
    refine ⟨⟨⟨?_, ?_⟩, ?_⟩, ?_⟩
    · cases lq with
      | none => rfl
      | some l => simpa using hl l rfl
    · cases oq with
      | none => rfl
      | some o => simpa using ho o rfl
    · cases nq with
      | none => rfl
      | some n => simpa using hn n rfl
    · cases sq with
      | none => rfl
      | some s => exact List.elem_iff.mpr (hs s rfl)

/-- C6 witness: the boundary inputs of `TestCollectionGETValidatesData` and
`TestPrivateGetBSOsLimitOffset` / `TestPrivateGetBSOsNewer`. -/
theorem get_query_validation_witness :
    newDB.getBSOs 0 1 none (-1) SortOrder.SORT_NONE 10 0 = .error .InvalidNewer ∧
    newDB.getBSOs 0 1 none 0 SortOrder.SORT_INDEX (-1) 0 = .error .InvalidLimit ∧
    newDB.getBSOs 0 1 none 0 SortOrder.SORT_INDEX 5 (-1) = .error .InvalidOffset ∧
    (∃ res, newDB.getBSOs 0 1 none 0 SortOrder.SORT_NEWEST 10 0 = .ok res) ∧
    collectionGETStatus (some 0) none none none = 400 ∧
    collectionGETStatus (some (-1)) none none none = 400 ∧
    collectionGETStatus none (some (-1)) none none = 400 ∧
    collectionGETStatus none none (some (-1)) none = 400 ∧
    collectionGETStatus none none none (some "invalid") = 400 ∧
    collectionGETStatus (some 123) (some 0) (some 1004) (some "newest") = 200 := by
  refine ⟨(get_query_validation newDB 0 1 none (-1) 10 0 SortOrder.SORT_NONE
      none none none none).1 (by decide),
    (get_query_validation newDB 0 1 none 0 (-1) 0 SortOrder.SORT_INDEX
      none none none none).2.1 (by decide) (by decide),
    (get_query_validation newDB 0 1 none 0 5 (-1) SortOrder.SORT_INDEX
      none none none none).2.2.1 (by decide) (by decide) (by decide),
    (get_query_validation newDB 0 1 none 0 10 0 SortOrder.SORT_NEWEST
      none none none none).2.2.2.1 (by decide) (by decide) (by decide),
    (get_query_validation newDB 0 1 none 0 1 0 SortOrder.SORT_NONE
      (some 0) none none none).2.2.2.2.1 ⟨0, rfl, by decide⟩,
    (get_query_validation newDB 0 1 none 0 1 0 SortOrder.SORT_NONE
      (some (-1)) none none none).2.2.2.2.1 ⟨-1, rfl, by decide⟩,
    (get_query_validation newDB 0 1 none 0 1 0 SortOrder.SORT_NONE
      none (some (-1)) none none).2.2.2.2.2.1 ⟨-1, rfl, by decide⟩,
    (get_query_validation newDB 0 1 none 0 1 0 SortOrder.SORT_NONE
      none none (some (-1)) none).2.2.2.2.2.2.1 ⟨-1, rfl, by decide⟩,
    (get_query_validation newDB 0 1 none 0 1 0 SortOrder.SORT_NONE
      none none none (some "invalid")).2.2.2.2.2.2.2.1 ⟨"invalid", rfl, by decide⟩,
    (get_query_validation newDB 0 1 none 0 1 0 SortOrder.SORT_NONE
      (some 123) (some 0) (some 1004) (some "newest")).2.2.2.2.2.2.2.2
      (fun l hl => by cases hl; decide) (fun o ho => by cases ho; decide)
      (fun n hn => by cases hn; decide) (fun s hs => by cases hs; decide)⟩

theorem find?_filter_ne (c : Cache) (k u : String) (h : u ≠ k) :
    (c.filter (fun p => p.1 != k)).find? (fun p => p.1 == u) =
      c.find? (fun p => p.1 == u) := by
  induction c with
  | nil => rfl
  | cons hd tl ih =>
    cases hfk : (hd.1 != k) with
    | false =>
      have h1 : hd.1 = k := by simpa using hfk
      have h2 : (hd.1 == u) = false :=
        beq_eq_false_iff_ne.mpr (by rw [h1]; exact Ne.symm h)
      simp only [List.filter_cons, hfk, Bool.false_eq_true, if_false,
        List.find?_cons, h2, ih]
    | true =>
      cases hfu : (hd.1 == u) with
      | true =>
        simp only [List.filter_cons, hfk, if_true, List.find?_cons, hfu]
      | false =>
        simp only [List.filter_cons, hfk, if_true, List.find?_cons, hfu, ih]

theorem cacheGet_set (c : Cache) (k v u : String) :
    cacheGet (cacheSet c k v) u = if u = k then some v else cacheGet c u := by
  unfold cacheGet cacheSet
  by_cases h : u = k
  · subst h
    simp [List.find?_cons]
  · rw [if_neg h]
    have hh : ((k, v).1 == u) = false := beq_eq_false_iff_ne.mpr (Ne.symm h)
    simp only [List.find?_cons, hh]
    rw [find?_filter_ne c k u h]

theorem cacheGet_set_ne (c : Cache) (k v u B : String) (hvB : v ≠ B)
    (hc : cacheGet c u ≠ some B) :
    cacheGet (cacheSet c k v) u ≠ some B := by
  rw [cacheGet_set]
  by_cases h : u = k
  · rw [if_pos h]
    intro he
    exact hvB (Option.some.inj he)
  · rw [if_neg h]
    exact hc

theorem fillCollection_fromCache (inner : Request → InnerResp) (cache : Cache)
    (uid : String) (req : Request) :
    (fillCollection inner cache uid req).fromCache = none := rfl

theorem fillCollection_not_cached (inner : Request → InnerResp) (cache : Cache)
    (uid : String) (req : Request) (u B : String)
    (hfresh : ∀ q, (inner q).code = 200 →
      (inner q).body ≠ B ∧ (inner q).xLastModified ≠ B)
    (hc : cacheGet cache u ≠ some B) :
    cacheGet (fillCollection inner cache uid req).cache u ≠ some B := by
  unfold fillCollection
  dsimp only
  by_cases hcode : (inner req).code = 200
  · rw [if_pos hcode]
    exact cacheGet_set_ne _ _ _ _ _ (hfresh req hcode).2
      (cacheGet_set_ne _ _ _ _ _ (hfresh req hcode).1 hc)
  · rw [if_neg hcode]
    exact hc

theorem fillConfiguration_not_cached (inner : Request → InnerResp) (cache : Cache)
    (req : Request) (u B : String)
    (hfresh : ∀ q, (inner q).code = 200 →
      (inner q).body ≠ B ∧ (inner q).xLastModified ≠ B)
    (hc : cacheGet cache u ≠ some B) :
    cacheGet (fillConfiguration inner cache req).cache u ≠ some B := by
  unfold fillConfiguration
  dsimp only
  by_cases hcode : (inner req).code = 200
  · rw [if_pos hcode]
    exact cacheGet_set_ne _ _ _ _ _ (hfresh req hcode).1 hc
  · rw [if_neg hcode]
    exact hc

theorem infoCollection_not_cached (inner : Request → InnerResp) (cache : Cache)
    (uid : String) (req : Request) (u B : String)
    (hfresh : ∀ q, (inner q).code = 200 →
      (inner q).body ≠ B ∧ (inner q).xLastModified ≠ B)
    (hc : cacheGet cache u ≠ some B) :
    cacheGet (infoCollection inner cache uid req).cache u ≠ some B := by
  unfold infoCollection
  repeat' split
  all_goals
    first
      | exact hc
      | exact fillCollection_not_cached inner cache uid req u B hfresh hc

theorem infoConfiguration_not_cached (inner : Request → InnerResp) (cache : Cache)
    (req : Request) (u B : String)
    (hfresh : ∀ q, (inner q).code = 200 →
      (inner q).body ≠ B ∧ (inner q).xLastModified ≠ B)
    (hc : cacheGet cache u ≠ some B) :
    cacheGet (infoConfiguration inner cache req).cache u ≠ some B := by
  unfold infoConfiguration
  repeat' split
  all_goals
    first
      | exact hc
      | exact fillConfiguration_not_cached inner cache req u B hfresh hc

theorem serveHTTP_not_cached (inner : Request → InnerResp) (cache : Cache)
    (r : Request) (u B : String) (hB : B ≠ "")
    (hfresh : ∀ q, (inner q).code = 200 →
      (inner q).body ≠ B ∧ (inner q).xLastModified ≠ B)
    (hc : cacheGet cache u ≠ some B) :
    cacheGet (serveHTTP inner cache r).cache u ≠ some B := by
  unfold serveHTTP
  cases hs : r.session with
  | none => exact hc
  | some sess =>
    dsimp only
    by_cases h1 : (r.method = Method.GET ∧ matchesInfoCollections r.path = true)
    · rw [if_pos h1]
      exact infoCollection_not_cached inner cache sess.uid r u B hfresh hc
    · rw [if_neg h1]
      by_cases h2 : (r.method = Method.GET ∧ matchesInfoConfiguration r.path = true)
      · rw [if_pos h2]
        exact infoConfiguration_not_cached inner cache r u B hfresh hc
      · rw [if_neg h2]
        dsimp only
        by_cases hm : (r.method = Method.POST ∨ r.method = Method.PUT ∨
            r.method = Method.DELETE)
        · rw [if_pos hm]
          exact cacheGet_set_ne _ _ _ _ _ (fun he => hB he.symm)
            (cacheGet_set_ne _ _ _ _ _ (fun he => hB he.symm) hc)
        · rw [if_neg hm]
          exact hc

theorem serveHTTP_collections_get (inner : Request → InnerResp) (cache : Cache)
    (r : Request) (sess : Session) (hsess : r.session = some sess)
    (hget : r.method = Method.GET)
    (hmatch : matchesInfoCollections r.path = true) :
    serveHTTP inner cache r = infoCollection inner cache sess.uid r := by
  unfold serveHTTP
  rw [hsess]
  dsimp only
  rw [if_pos ⟨hget, hmatch⟩]

theorem infoCollection_fromCache (inner : Request → InnerResp) (cache : Cache)
    (uid : String) (req : Request) (B : String)
    (h : (infoCollection inner cache uid req).fromCache = some B) :
    cacheGet cache uid = some B ∧ B ≠ "" := by
  unfold infoCollection at h
  cases hlm : cacheGet cache (lastModifiedKey uid) with
  | none =>
    rw [hlm, fillCollection_fromCache] at h
    exact Option.noConfusion h
  | some lm =>
    rw [hlm] at h
    dsimp only at h
    by_cases hlen : lm.length > 0
    · rw [if_pos hlen] at h
      by_cases hnm : sentNotModified req (convertTimestamp lm) = true
      · rw [if_pos hnm] at h
        exact Option.noConfusion h
      · rw [if_neg hnm] at h
        cases hdata : cacheGet cache uid with
        | none =>
          rw [hdata, fillCollection_fromCache] at h
          exact Option.noConfusion h
        | some data =>
          rw [hdata] at h
          dsimp only at h
          by_cases hdlen : data.length > 0
          · rw [if_pos hdlen] at h
            dsimp only at h
            have hdB : data = B := Option.some.inj h
            refine ⟨by rw [hdB], fun hBe => ?_⟩
            rw [hdB, hBe] at hdlen
            exact absurd hdlen (by decide)
          · rw [if_neg hdlen, fillCollection_fromCache] at h
            exact Option.noConfusion h
    · rw [if_neg hlen, fillCollection_fromCache] at h
      exact Option.noConfusion h

theorem isCollectionsGetFor_eq (u : String) (r : Request)
    (h : isCollectionsGetFor u r = true) :
    r.session = some ⟨u⟩ ∧ r.method = Method.GET ∧
      matchesInfoCollections r.path = true := by
  unfold isCollectionsGetFor at h
  rw [Bool.and_eq_true, Bool.and_eq_true] at h
  exact ⟨by simpa using h.1.1, by simpa using h.1.2, h.2⟩

theorem servedBodyFor_false (inner : Request → InnerResp) (cache : Cache)
    (u B : String) (reqs : List Request) (hB : B ≠ "")
    (hfresh : ∀ q, (inner q).code = 200 →
      (inner q).body ≠ B ∧ (inner q).xLastModified ≠ B)
    (hc : cacheGet cache u ≠ some B) :
    servedBodyFor inner cache u B reqs = false := by
  induction reqs generalizing cache with
  | nil => rfl
  | cons r rs ih =>
    unfold servedBodyFor
    dsimp only
    rw [Bool.or_eq_false_iff]
    refine ⟨?_, ih _ (serveHTTP_not_cached inner cache r u B hB hfresh hc)⟩
    cases hg : isCollectionsGetFor u r with
    | false => rw [Bool.false_and]
    | true =>
      rw [Bool.true_and]
      rcases isCollectionsGetFor_eq u r hg with ⟨hsess, hget, hmatch⟩
      rw [serveHTTP_collections_get inner cache r ⟨u⟩ hsess hget hmatch]
      cases hfc : (infoCollection inner cache u r).fromCache with
      | none => rfl
      | some B2 =>
        have hchar := infoCollection_fromCache inner cache u r B2 hfc
        have hne : B2 ≠ B := fun he => hc (he ▸ hchar.1)
        simpa using hne

/-- C2: on any POST/PUT/DELETE request with a session, both of the user's
cache entries (`l<uid>` and `<uid>`) are cleared in the cache state handed to
the inner handler, i.e. before forwarding; an `info/collections` response can
come from the cache only when it is the current non-empty cached body; and
along any request trace starting from a state in which the user's body entry
no longer holds `B`, the old body `B` is never served from the cache for that
user as long as no fresh 200 response reintroduces it. -/
theorem cacheHandler_invalidation (inner : Request → InnerResp) (cache : Cache)
    (req : Request) (sess : Session) (u B : String) (reqs : List Request) :
    (req.session = some sess →
      (req.method = Method.POST ∨ req.method = Method.PUT ∨
        req.method = Method.DELETE) →
      ∃ c2, (serveHTTP inner cache req).forwardedState = some c2 ∧
        cacheGet c2 sess.uid = some "" ∧
        cacheGet c2 (lastModifiedKey sess.uid) = some "") ∧
    (∀ v, req.path = ReqPath.infoCollections v →
      ∀ B2, (serveHTTP inner cache req).fromCache = some B2 →
      ∃ s, req.session = some s ∧ cacheGet cache s.uid = some B2 ∧ B2 ≠ "") ∧
    (B ≠ "" →
      (∀ q, (inner q).code = 200 →
        (inner q).body ≠ B ∧ (inner q).xLastModified ≠ B) →
      cacheGet cache u ≠ some B →
      servedBodyFor inner cache u B reqs = false) := by
  refine ⟨?_, ?_, ?_⟩
  · intro hsess hmut
    unfold serveHTTP
    rw [hsess]
    dsimp only
    have hng1 : ¬(req.method = Method.GET ∧ matchesInfoCollections req.path = true) := by
      rintro ⟨hg, -⟩
      rcases hmut with hm | hm | hm <;> rw [hm] at hg <;> exact Method.noConfusion hg
    rw [if_neg hng1]
    have hng2 : ¬(req.method = Method.GET ∧ matchesInfoConfiguration req.path = true) := by
      rintro ⟨hg, -⟩
      rcases hmut with hm | hm | hm <;> rw [hm] at hg <;> exact Method.noConfusion hg
    rw [if_neg hng2]
    dsimp only
    rw [if_pos hmut]
    refine ⟨_, rfl, ?_, ?_⟩
    · rw [cacheGet_set, if_pos rfl]
    · rw [cacheGet_set]
      by_cases he : lastModifiedKey sess.uid = sess.uid
      · rw [if_pos he]
      · rw [if_neg he, cacheGet_set, if_pos rfl]
  · intro v hpath B2 hfc
    unfold serveHTTP at hfc
    cases hsess : req.session with
    | none =>
      rw [hsess] at hfc
      exact Option.noConfusion hfc
    | some s =>
      rw [hsess] at hfc
      dsimp only at hfc
      by_cases hcond : (req.method = Method.GET ∧ matchesInfoCollections req.path = true)
      · rw [if_pos hcond] at hfc
        have hchar := infoCollection_fromCache inner cache s.uid req B2 hfc
        exact ⟨s, rfl, hchar.1, hchar.2⟩
      · rw [if_neg hcond] at hfc
        have hnc2 : ¬(req.method = Method.GET ∧ matchesInfoConfiguration req.path = true) := by
          rintro ⟨-, hm2⟩
          rw [hpath] at hm2
          exact Bool.noConfusion hm2
        rw [if_neg hnc2] at hfc
        exact Option.noConfusion hfc
  · intro hB hfresh hc
    exact servedBodyFor_false inner cache u B reqs hB hfresh hc

/-- C2 witness: a concrete POST invalidates both entries for uid 123 before
forwarding; the cached body `"oldbody"` is served only while it is the cache
entry; and after invalidation it is never served again on a trace whose inner
responses are fresh. -/
theorem cacheHandler_invalidation_witness :
    (∃ c2, (serveHTTP innerOK [("123", "oldbody"), ("l123", "99.00")]
        mutReq).forwardedState = some c2 ∧
      cacheGet c2 "123" = some "" ∧
      cacheGet c2 (lastModifiedKey "123") = some "") ∧
    (∃ s, getColReq.session = some s ∧
      cacheGet [("123", "oldbody"), ("l123", "99.00")] s.uid = some "oldbody" ∧
      ("oldbody" : String) ≠ "") ∧
    servedBodyFor innerOK [("123", ""), ("l123", "")] "123" "oldbody"
      [getColReq, mutReq, getColReq] = false := by
  refine ⟨?_, ?_, ?_⟩
  · exact (cacheHandler_invalidation innerOK [("123", "oldbody"), ("l123", "99.00")]
      mutReq ⟨"123"⟩ "123" "oldbody" []).1 rfl (Or.inl rfl)
  · exact (cacheHandler_invalidation innerOK [("123", "oldbody"), ("l123", "99.00")]
      getColReq ⟨"123"⟩ "123" "oldbody" []).2.1 "123" rfl "oldbody" rfl
  · exact (cacheHandler_invalidation innerOK [("123", ""), ("l123", "")]
      getColReq ⟨"123"⟩ "123" "oldbody" [getColReq, mutReq, getColReq]).2.2
      (by decide)
      (fun q _ => ⟨show ("fresh" : String) ≠ "oldbody" by decide,
        show ("100.00" : String) ≠ "oldbody" by decide⟩)
      (by decide)
